import Mathlib

/-!
Verification of the postDESeq2 annotate-and-split pipeline.

The source program (a single Python script) parses DESeq2 result rows
`(gene_id, base_mean, log2FC, std_err, wald_stat, p_value, p_adj)`,
normalizes the gene identifier, classifies each row into seven fixed
significance categories, joins rows against an external keyed table, and
emits three output shapes (annotated table, boolean expression tables,
significant-only subsets).

Numeric fields are modeled as rationals (`ℚ`): every comparison performed by
the program is a strict comparison between a parsed decimal value and a
decimal threshold literal, and all the decided claims concern order facts
that are preserved by the exact-decimal reading of those literals.
-/

namespace Postdeseq

/-- One parsed input row, in the source's fixed column order. -/
structure Row where
  gene_id : String
  base_mean : ℚ
  log2FC : ℚ
  std_err : ℚ
  wald_stat : ℚ
  p_value : ℚ
  p_adj : ℚ
  deriving DecidableEq

/-! ### The seven identifier-or-empty category functions

Each mirrors one of the functions `padj_low_005` .. `log2FC_higher_1_or_...`
of the script: return `row[0]` (the gene id) when the predicate over
`row[6]` (p_adj) and `row[2]` (log2FC) holds, else the empty string. -/

def padj_low_005 (row : Row) : String :=
  if row.p_adj < mkRat 5 100 then row.gene_id else ""

def log2FC_high_0_padj_low_005 (row : Row) : String :=
  if row.p_adj < mkRat 5 100 ∧ row.log2FC > 0 then row.gene_id else ""

def log2FC_low_0_and_padj_low005 (row : Row) : String :=
  if row.p_adj < mkRat 5 100 ∧ row.log2FC < 0 then row.gene_id else ""

def padj_low_001 (row : Row) : String :=
  if row.p_adj < mkRat 1 100 then row.gene_id else ""

def log2FC_high_1_and_padj_low_001 (row : Row) : String :=
  if row.p_adj < mkRat 1 100 ∧ row.log2FC > 1 then row.gene_id else ""

def log2FC_low_minus_1_and_padj_low_001 (row : Row) : String :=
  if row.p_adj < mkRat 1 100 ∧ row.log2FC < -1 then row.gene_id else ""

def log2FC_higher_1_or_log2FC_low_minus_1_and_padj_001 (row : Row) : String :=
  if row.p_adj < mkRat 1 100 ∧ (row.log2FC < -1 ∨ row.log2FC > 1) then row.gene_id else ""

/-! ### The seven boolean (GOseq) category functions

Each mirrors one of the `b_*` functions of the script: the same predicates,
rendered as the strings `"True"` / `"False"`. -/

def b_padj_low_005 (row : Row) : String :=
  if row.p_adj < mkRat 5 100 then "True" else "False"

def b_log2FC_high_0_padj_low_005 (row : Row) : String :=
  if row.p_adj < mkRat 5 100 ∧ row.log2FC > 0 then "True" else "False"

def b_log2FC_low_0_and_padj_low005 (row : Row) : String :=
  if row.p_adj < mkRat 5 100 ∧ row.log2FC < 0 then "True" else "False"

def b_padj_low_001 (row : Row) : String :=
  if row.p_adj < mkRat 1 100 then "True" else "False"

def b_log2FC_high_1_and_padj_low_001 (row : Row) : String :=
  if row.p_adj < mkRat 1 100 ∧ row.log2FC > 1 then "True" else "False"

def b_log2FC_low_minus_1_and_padj_low_001 (row : Row) : String :=
  if row.p_adj < mkRat 1 100 ∧ row.log2FC < -1 then "True" else "False"

def b_log2FC_higher_1_or_log2FC_low_minus_1_and_padj_001 (row : Row) : String :=
  if row.p_adj < mkRat 1 100 ∧ (row.log2FC < -1 ∨ row.log2FC > 1) then "True" else "False"

/-! ### Generic rendering lemmas -/

lemma bTrue_iff (p : Prop) [Decidable p] :
    ((if p then "True" else "False") = ("True" : String)) ↔ p := by
  by_cases h : p
  · simp [h]
  · rw [if_neg h]
    constructor
    · intro hc
      exact absurd hc (by decide)
    · intro hp
      exact absurd hp h

lemma bFalse_iff (p : Prop) [Decidable p] :
    ((if p then "True" else "False") = ("False" : String)) ↔ ¬p := by
  by_cases h : p
  · rw [if_pos h]
    constructor
    · intro hc
      exact absurd hc (by decide)
    · intro hp
      exact absurd h hp
  · simp [h]

lemma idNe_iff (g : String) (p : Prop) [Decidable p] :
    ((if p then g else "") ≠ "") ↔ (p ∧ g ≠ "") := by
  by_cases h : p <;> simp [h]

lemma idEmpty_of_not (g : String) (p : Prop) [Decidable p] (h : ¬p) :
    (if p then g else "") = "" := if_neg h

lemma renderAgree (g : String) (hg : g ≠ "") (p : Prop) [Decidable p] :
    ((if p then g else "") ≠ "") ↔ ((if p then "True" else "False") = "True") := by
  rw [idNe_iff, bTrue_iff]
  exact ⟨fun hh => hh.1, fun hp => ⟨hp, hg⟩⟩

/-- C1: every one of the seven category predicates is strict at its threshold:
`p_adj = 0.05` is excluded from categories 1, 2, 3; `p_adj = 0.01` is excluded
from categories 4, 5, 6, 7; `log2FC = 0` is excluded from categories 2, 3;
`log2FC = 1` is excluded from categories 5, 7; `log2FC = -1` is excluded from
categories 6, 7 — in both the boolean and the identifier-or-empty renderings. -/
theorem C1_boundaries :
    (∀ r : Row, r.p_adj = mkRat 5 100 →
      b_padj_low_005 r = "False" ∧ b_log2FC_high_0_padj_low_005 r = "False" ∧
      b_log2FC_low_0_and_padj_low005 r = "False" ∧
      padj_low_005 r = "" ∧ log2FC_high_0_padj_low_005 r = "" ∧
      log2FC_low_0_and_padj_low005 r = "") ∧
    (∀ r : Row, r.p_adj = mkRat 1 100 →
      b_padj_low_001 r = "False" ∧ b_log2FC_high_1_and_padj_low_001 r = "False" ∧
      b_log2FC_low_minus_1_and_padj_low_001 r = "False" ∧
      b_log2FC_higher_1_or_log2FC_low_minus_1_and_padj_001 r = "False" ∧
      padj_low_001 r = "" ∧ log2FC_high_1_and_padj_low_001 r = "" ∧
      log2FC_low_minus_1_and_padj_low_001 r = "" ∧
      log2FC_higher_1_or_log2FC_low_minus_1_and_padj_001 r = "") ∧
    (∀ r : Row, r.log2FC = 0 →
      b_log2FC_high_0_padj_low_005 r = "False" ∧ b_log2FC_low_0_and_padj_low005 r = "False" ∧
      log2FC_high_0_padj_low_005 r = "" ∧ log2FC_low_0_and_padj_low005 r = "") ∧
    (∀ r : Row, r.log2FC = 1 →
      b_log2FC_high_1_and_padj_low_001 r = "False" ∧
      b_log2FC_higher_1_or_log2FC_low_minus_1_and_padj_001 r = "False" ∧
      log2FC_high_1_and_padj_low_001 r = "" ∧
      log2FC_higher_1_or_log2FC_low_minus_1_and_padj_001 r = "") ∧
    (∀ r : Row, r.log2FC = -1 →
      b_log2FC_low_minus_1_and_padj_low_001 r = "False" ∧
      b_log2FC_higher_1_or_log2FC_low_minus_1_and_padj_001 r = "False" ∧
      log2FC_low_minus_1_and_padj_low_001 r = "" ∧
      log2FC_higher_1_or_log2FC_low_minus_1_and_padj_001 r = "") := by
  refine ⟨fun r h => ?_, fun r h => ?_, fun r h => ?_, fun r h => ?_, fun r h => ?_⟩
  · have hn : ¬(r.p_adj < mkRat 5 100) := by rw [h]; exact lt_irrefl _
    exact ⟨(bFalse_iff _).2 hn, (bFalse_iff _).2 (fun hc => hn hc.1),
      (bFalse_iff _).2 (fun hc => hn hc.1),
      idEmpty_of_not _ _ hn, idEmpty_of_not _ _ (fun hc => hn hc.1),
      idEmpty_of_not _ _ (fun hc => hn hc.1)⟩
  · have hn : ¬(r.p_adj < mkRat 1 100) := by rw [h]; exact lt_irrefl _
    exact ⟨(bFalse_iff _).2 hn, (bFalse_iff _).2 (fun hc => hn hc.1),
      (bFalse_iff _).2 (fun hc => hn hc.1), (bFalse_iff _).2 (fun hc => hn hc.1),
      idEmpty_of_not _ _ hn, idEmpty_of_not _ _ (fun hc => hn hc.1),
      idEmpty_of_not _ _ (fun hc => hn hc.1), idEmpty_of_not _ _ (fun hc => hn hc.1)⟩
  · have hn1 : ¬(r.log2FC > 0) := by rw [h]; exact lt_irrefl _
    have hn2 : ¬(r.log2FC < 0) := by rw [h]; exact lt_irrefl _
    exact ⟨(bFalse_iff _).2 (fun hc => hn1 hc.2), (bFalse_iff _).2 (fun hc => hn2 hc.2),
      idEmpty_of_not _ _ (fun hc => hn1 hc.2), idEmpty_of_not _ _ (fun hc => hn2 hc.2)⟩
  · have hn1 : ¬(r.log2FC > 1) := by rw [h]; exact lt_irrefl _
    have hn2 : ¬(r.log2FC < -1 ∨ r.log2FC > 1) := by
      rw [h]
      rintro (hc | hc)
      · exact absurd hc (by decide)
      · exact lt_irrefl _ hc
    exact ⟨(bFalse_iff _).2 (fun hc => hn1 hc.2), (bFalse_iff _).2 (fun hc => hn2 hc.2),
      idEmpty_of_not _ _ (fun hc => hn1 hc.2), idEmpty_of_not _ _ (fun hc => hn2 hc.2)⟩
  · have hn1 : ¬(r.log2FC < -1) := by rw [h]; exact lt_irrefl _
    have hn2 : ¬(r.log2FC < -1 ∨ r.log2FC > 1) := by
      rw [h]
      rintro (hc | hc)
      · exact lt_irrefl _ hc
      · exact absurd hc (by decide)
    exact ⟨(bFalse_iff _).2 (fun hc => hn1 hc.2), (bFalse_iff _).2 (fun hc => hn2 hc.2),
      idEmpty_of_not _ _ (fun hc => hn1 hc.2), idEmpty_of_not _ _ (fun hc => hn2 hc.2)⟩

/-- Boundary rows used to witness `C1_boundaries`. -/
def rowPadj005 : Row := ⟨"g", 0, 0, 0, 0, 0, mkRat 5 100⟩

def rowPadj001 : Row := ⟨"g", 0, 0, 0, 0, 0, mkRat 1 100⟩

def rowFC0 : Row := ⟨"g", 0, 0, 0, 0, 0, mkRat 1 2⟩

def rowFC1 : Row := ⟨"g", 0, 1, 0, 0, 0, mkRat 1 2⟩

def rowFCm1 : Row := ⟨"g", 0, -1, 0, 0, 0, mkRat 1 2⟩

/-- C1 witness: the boundary exclusions evaluated at concrete boundary rows. -/
theorem C1_boundaries_witness :
    (b_padj_low_005 rowPadj005 = "False" ∧ b_log2FC_high_0_padj_low_005 rowPadj005 = "False" ∧
      b_log2FC_low_0_and_padj_low005 rowPadj005 = "False" ∧
      padj_low_005 rowPadj005 = "" ∧ log2FC_high_0_padj_low_005 rowPadj005 = "" ∧
      log2FC_low_0_and_padj_low005 rowPadj005 = "") ∧
    (b_padj_low_001 rowPadj001 = "False" ∧ b_log2FC_high_1_and_padj_low_001 rowPadj001 = "False" ∧
      b_log2FC_low_minus_1_and_padj_low_001 rowPadj001 = "False" ∧
      b_log2FC_higher_1_or_log2FC_low_minus_1_and_padj_001 rowPadj001 = "False" ∧
      padj_low_001 rowPadj001 = "" ∧ log2FC_high_1_and_padj_low_001 rowPadj001 = "" ∧
      log2FC_low_minus_1_and_padj_low_001 rowPadj001 = "" ∧
      log2FC_higher_1_or_log2FC_low_minus_1_and_padj_001 rowPadj001 = "") ∧
    (b_log2FC_high_0_padj_low_005 rowFC0 = "False" ∧ b_log2FC_low_0_and_padj_low005 rowFC0 = "False" ∧
      log2FC_high_0_padj_low_005 rowFC0 = "" ∧ log2FC_low_0_and_padj_low005 rowFC0 = "") ∧
    (b_log2FC_high_1_and_padj_low_001 rowFC1 = "False" ∧
      b_log2FC_higher_1_or_log2FC_low_minus_1_and_padj_001 rowFC1 = "False" ∧
      log2FC_high_1_and_padj_low_001 rowFC1 = "" ∧
      log2FC_higher_1_or_log2FC_low_minus_1_and_padj_001 rowFC1 = "") ∧
    (b_log2FC_low_minus_1_and_padj_low_001 rowFCm1 = "False" ∧
      b_log2FC_higher_1_or_log2FC_low_minus_1_and_padj_001 rowFCm1 = "False" ∧
      log2FC_low_minus_1_and_padj_low_001 rowFCm1 = "" ∧
      log2FC_higher_1_or_log2FC_low_minus_1_and_padj_001 rowFCm1 = "") :=
  ⟨C1_boundaries.1 rowPadj005 rfl, C1_boundaries.2.1 rowPadj001 rfl,
    C1_boundaries.2.2.1 rowFC0 rfl, C1_boundaries.2.2.2.1 rowFC1 rfl,
    C1_boundaries.2.2.2.2 rowFCm1 rfl⟩

/-- C3: category 7 is exactly the union of categories 5 and 6, for every row,
in both the boolean rendering and the identifier-or-empty rendering. -/
theorem C3_union (r : Row) :
    (b_log2FC_higher_1_or_log2FC_low_minus_1_and_padj_001 r = "True" ↔
      (b_log2FC_high_1_and_padj_low_001 r = "True" ∨
        b_log2FC_low_minus_1_and_padj_low_001 r = "True")) ∧
    (log2FC_higher_1_or_log2FC_low_minus_1_and_padj_001 r ≠ "" ↔
      (log2FC_high_1_and_padj_low_001 r ≠ "" ∨
        log2FC_low_minus_1_and_padj_low_001 r ≠ "")) := by
  constructor
  · unfold b_log2FC_higher_1_or_log2FC_low_minus_1_and_padj_001
      b_log2FC_high_1_and_padj_low_001 b_log2FC_low_minus_1_and_padj_low_001
    rw [bTrue_iff, bTrue_iff, bTrue_iff]
    tauto
  · unfold log2FC_higher_1_or_log2FC_low_minus_1_and_padj_001
      log2FC_high_1_and_padj_low_001 log2FC_low_minus_1_and_padj_low_001
    rw [idNe_iff, idNe_iff, idNe_iff]
    tauto

/-- C10: the categories form a hierarchy: 5 implies 1, 2, 4; 6 implies
1, 3, 4; and 4 implies 1. -/
theorem C10_hierarchy :
    (∀ r : Row, b_log2FC_high_1_and_padj_low_001 r = "True" →
      b_padj_low_005 r = "True" ∧ b_log2FC_high_0_padj_low_005 r = "True" ∧
      b_padj_low_001 r = "True") ∧
    (∀ r : Row, b_log2FC_low_minus_1_and_padj_low_001 r = "True" →
      b_padj_low_005 r = "True" ∧ b_log2FC_low_0_and_padj_low005 r = "True" ∧
      b_padj_low_001 r = "True") ∧
    (∀ r : Row, b_padj_low_001 r = "True" → b_padj_low_005 r = "True") := by
  refine ⟨fun r h => ?_, fun r h => ?_, fun r h => ?_⟩
  · replace h := (bTrue_iff _).1 h
    refine ⟨(bTrue_iff _).2 ?_, (bTrue_iff _).2 ?_, (bTrue_iff _).2 ?_⟩
    · exact h.1.trans (by decide)
    · exact ⟨h.1.trans (by decide), lt_trans (by decide) h.2⟩
    · exact h.1
  · replace h := (bTrue_iff _).1 h
    refine ⟨(bTrue_iff _).2 ?_, (bTrue_iff _).2 ?_, (bTrue_iff _).2 ?_⟩
    · exact h.1.trans (by decide)
    · exact ⟨h.1.trans (by decide), lt_trans h.2 (by decide)⟩
    · exact h.1
  · replace h := (bTrue_iff _).1 h
    exact (bTrue_iff _).2 (h.trans (by decide))

/-! ### Identifier normalization

The script removes the text `gene:` from the GeneID column with a
pandas regex replacement. `re.sub` deletes every leftmost,
non-overlapping occurrence of the pattern anywhere in the string — not
only a leading prefix. `stripGeneChars` implements exactly that scan:
at each position, if the next five characters are `gene:` they are
consumed and the scan resumes after them, otherwise one character is
kept. -/

def stripGeneChars : List Char → List Char
  | [] => []
  | 'g' :: 'e' :: 'n' :: 'e' :: ':' :: rest => stripGeneChars rest
  | c :: cs => c :: stripGeneChars cs

/-- The gene-id normalization applied to a raw identifier string. -/
def stripGene (s : String) : String := String.mk (stripGeneChars s.data)

/-- Whether the pattern `gene:` occurs (as a contiguous substring) in the list. -/
def containsGeneChars : List Char → Bool
  | [] => false
  | 'g' :: 'e' :: 'n' :: 'e' :: ':' :: _ => true
  | _ :: cs => containsGeneChars cs

def containsGene (s : String) : Bool := containsGeneChars s.data

/-- Normalization of one parsed row: the GeneID column is rewritten, the
numeric columns are untouched. -/
def cleanRow (r : Row) : Row := { r with gene_id := stripGene r.gene_id }

lemma containsGeneChars_cons (c : Char) (cs : List Char)
    (hne : ∀ rest, c = 'g' → cs = 'e' :: 'n' :: 'e' :: ':' :: rest → False) :
    containsGeneChars (c :: cs) = containsGeneChars cs := by
  rw [containsGeneChars.eq_def]
  split
  · rename_i heq
    simp at heq
  · rename_i rest heq
    rw [List.cons_eq_cons] at heq
    exact (hne rest heq.1 heq.2).elim
  · rename_i c2 cs2 hne2 heq
    rw [List.cons_eq_cons] at heq
    rw [heq.2]

lemma stripGeneChars_cons (c : Char) (cs : List Char)
    (hne : ∀ rest, c = 'g' → cs = 'e' :: 'n' :: 'e' :: ':' :: rest → False) :
    stripGeneChars (c :: cs) = c :: stripGeneChars cs := by
  rw [stripGeneChars.eq_def]
  split
  · rename_i heq
    simp at heq
  · rename_i rest heq
    rw [List.cons_eq_cons] at heq
    exact (hne rest heq.1 heq.2).elim
  · rename_i c2 cs2 hne2 heq
    rw [List.cons_eq_cons] at heq
    rw [heq.1, heq.2]

lemma strip_of_not_contains :
    ∀ l : List Char, containsGeneChars l = false → stripGeneChars l = l := by
  intro l
  induction l using stripGeneChars.induct with
  | case1 =>
    intro _
    rfl
  | case2 rest ih =>
    intro h
    exact absurd h (by simp [containsGeneChars])
  | case3 c cs h1 ih =>
    intro h
    rw [containsGeneChars_cons c cs h1] at h
    rw [stripGeneChars_cons c cs h1, ih h]

lemma stripGene_of_not_contains (s : String) (h : containsGene s = false) :
    stripGene s = s := by
  cases s with
  | mk data =>
    show String.mk (stripGeneChars data) = String.mk data
    rw [strip_of_not_contains data h]

/-- C4 counterexample: in `"agene:b"` the text `gene:` does not occur at the
start of the identifier, yet normalization does not leave it in place — the
result is `"ab"`, not the unchanged string the claim requires. -/
theorem C4_counterexample :
    "gene:".data.isPrefixOf "agene:b".data = false ∧
    stripGene "agene:b" = "ab" ∧ stripGene "agene:b" ≠ "agene:b" := by decide

/-- C4 (amended): normalization deletes every leftmost non-overlapping
occurrence of `gene:` anywhere in `gene_id`, not only a leading prefix: a
string without any occurrence passes through unchanged, and a leading
`gene:` is consumed with the scan continuing on the remainder. -/
theorem C4_amended (s : String) :
    (containsGene s = false → stripGene s = s) ∧
    stripGene ("gene:" ++ s) = stripGene s := by
  constructor
  · exact stripGene_of_not_contains s
  · cases s with
    | mk data => rfl

/-- C4 witness: the amended statement evaluated on concrete identifiers. -/
theorem C4_amended_witness :
    stripGene "abc" = "abc" ∧ stripGene ("gene:" ++ "abc") = stripGene "abc" :=
  ⟨(C4_amended "abc").1 (by decide), (C4_amended "abc").2⟩

/-- C8 counterexample: Direct-mode normalization is not idempotent. Removing
the non-overlapping occurrences of `gene:` from `"gegene:ne:"` yields
`"gene:"`, and normalizing that output again yields `""`. -/
theorem C8_counterexample :
    stripGene (stripGene "gegene:ne:") ≠ stripGene "gegene:ne:" := by decide

/-- C8 (amended): Direct-mode normalization is idempotent on every identifier
whose normalized form no longer contains the text `gene:`; the counterexample
shows the unrestricted claim fails when removal re-creates an occurrence. -/
theorem C8_amended (s : String) (h : containsGene (stripGene s) = false) :
    stripGene (stripGene s) = stripGene s :=
  stripGene_of_not_contains (stripGene s) h

/-- C8 witness: idempotence evaluated at `"gene:abc"`. -/
theorem C8_amended_witness :
    stripGene (stripGene "gene:abc") = stripGene "gene:abc" :=
  C8_amended "gene:abc" (by decide)

/-- A raw row whose GeneID is exactly the prefix text: after normalization its
identifier is the empty string while the row is strongly significant. -/
def rawEmptyRow : Row := ⟨"gene:", 0, 2, 0, 0, 0, mkRat 1 1000⟩

/-- C2 counterexample: on the normalized row whose cleaned identifier is
empty, the identifier-or-empty rendering of category 1 is empty while the
boolean rendering is `"True"` — the two renderings disagree on the
predicate's truth value. -/
theorem C2_counterexample :
    ¬ ((padj_low_005 (cleanRow rawEmptyRow) ≠ "") ↔
      (b_padj_low_005 (cleanRow rawEmptyRow) = "True")) := by decide

/-- C2 (amended): for every record whose (cleaned) gene identifier is
non-empty, the identifier-or-empty rendering of each of the seven categories
is non-empty exactly when the boolean rendering is `"True"`. -/
theorem C2_amended (r : Row) (hg : r.gene_id ≠ "") :
    ((padj_low_005 r ≠ "") ↔ (b_padj_low_005 r = "True")) ∧
    ((log2FC_high_0_padj_low_005 r ≠ "") ↔ (b_log2FC_high_0_padj_low_005 r = "True")) ∧
    ((log2FC_low_0_and_padj_low005 r ≠ "") ↔ (b_log2FC_low_0_and_padj_low005 r = "True")) ∧
    ((padj_low_001 r ≠ "") ↔ (b_padj_low_001 r = "True")) ∧
    ((log2FC_high_1_and_padj_low_001 r ≠ "") ↔ (b_log2FC_high_1_and_padj_low_001 r = "True")) ∧
    ((log2FC_low_minus_1_and_padj_low_001 r ≠ "") ↔
      (b_log2FC_low_minus_1_and_padj_low_001 r = "True")) ∧
    ((log2FC_higher_1_or_log2FC_low_minus_1_and_padj_001 r ≠ "") ↔
      (b_log2FC_higher_1_or_log2FC_low_minus_1_and_padj_001 r = "True")) :=
  ⟨renderAgree _ hg _, renderAgree _ hg _, renderAgree _ hg _, renderAgree _ hg _,
    renderAgree _ hg _, renderAgree _ hg _, renderAgree _ hg _⟩

/-- A sample row with a non-empty identifier, used to witness `C2_amended`. -/
def sampleRow : Row := ⟨"g9", 2, 3, 0, 0, 0, mkRat 2 10⟩

/-- C2 witness: the agreement of the two renderings evaluated at a concrete
row with a non-empty identifier. -/
theorem C2_amended_witness :
    ((padj_low_005 sampleRow ≠ "") ↔ (b_padj_low_005 sampleRow = "True")) ∧
    ((log2FC_high_0_padj_low_005 sampleRow ≠ "") ↔
      (b_log2FC_high_0_padj_low_005 sampleRow = "True")) ∧
    ((log2FC_low_0_and_padj_low005 sampleRow ≠ "") ↔
      (b_log2FC_low_0_and_padj_low005 sampleRow = "True")) ∧
    ((padj_low_001 sampleRow ≠ "") ↔ (b_padj_low_001 sampleRow = "True")) ∧
    ((log2FC_high_1_and_padj_low_001 sampleRow ≠ "") ↔
      (b_log2FC_high_1_and_padj_low_001 sampleRow = "True")) ∧
    ((log2FC_low_minus_1_and_padj_low_001 sampleRow ≠ "") ↔
      (b_log2FC_low_minus_1_and_padj_low_001 sampleRow = "True")) ∧
    ((log2FC_higher_1_or_log2FC_low_minus_1_and_padj_001 sampleRow ≠ "") ↔
      (b_log2FC_higher_1_or_log2FC_low_minus_1_and_padj_001 sampleRow = "True")) :=
  C2_amended sampleRow (by decide)

/-! ### Locus / version splitting (species "S", i.e. LocusVersioned mode)

The script derives the locus with a pandas expanding split on the dot.
Like Python's `str.split`, the split uses every dot, not just the first
one. `splitDotChars` implements Python's `str.split` for the
single-character separator dot. -/

def splitDotChars : List Char → List (List Char)
  | [] => [[]]
  | c :: cs =>
    let r := splitDotChars cs
    if c = '.' then [] :: r else (c :: r.headD []) :: r.tail

/-- Python's `split` on the dot separator, on strings. -/
def splitDot (s : String) : List String := (splitDotChars s.data).map String.mk

/-- The `(locus, version)` columns produced for one identifier, given that the
expanded frame has exactly two columns: a one-part identifier is padded with a
null second column, exactly as pandas pads short rows. -/
def locusPair (i : String) : String × Option String :=
  match splitDot i with
  | [a, b] => (a, some b)
  | [a] => (a, none)
  | _ => (i, none)

/-- The whole-file locus split. Pandas expands the split of every identifier
into `max` parts many columns and the script assigns the result to exactly
two columns, which raises for the whole file unless that maximum is 2
(modeled as `none`). -/
def locusSplitFile (ids : List String) : Option (List (String × Option String)) :=
  if (ids.map fun i => (splitDot i).length).foldr max 0 = 2 then
    some (ids.map locusPair)
  else none

lemma splitDotChars_no_dot : ∀ l : List Char, '.' ∉ l → splitDotChars l = [l] := by
  intro l
  induction l with
  | nil =>
    intro _
    rfl
  | cons c cs ih =>
    intro h
    rw [List.mem_cons] at h
    push_neg at h
    obtain ⟨h1, h2⟩ := h
    have hc : ¬(c = '.') := fun he => h1 he.symm
    simp only [splitDotChars]
    rw [if_neg hc, ih h2]
    rfl

lemma splitDotChars_append : ∀ l m : List Char, '.' ∉ l →
    splitDotChars (l ++ '.' :: m) = l :: splitDotChars m := by
  intro l m
  induction l with
  | nil =>
    intro _
    show splitDotChars ('.' :: m) = [] :: splitDotChars m
    simp [splitDotChars]
  | cons c cs ih =>
    intro h
    rw [List.mem_cons] at h
    push_neg at h
    obtain ⟨h1, h2⟩ := h
    have hc : ¬(c = '.') := fun he => h1 he.symm
    show splitDotChars (c :: (cs ++ '.' :: m)) = (c :: cs) :: splitDotChars m
    simp only [splitDotChars]
    rw [if_neg hc, ih h2]
    rfl

lemma mk_data (s : String) : String.mk s.data = s := by
  cases s with
  | mk d => rfl

lemma splitDot_no_dot (s : String) (h : '.' ∉ s.data) : splitDot s = [s] := by
  unfold splitDot
  rw [splitDotChars_no_dot s.data h]
  simp [mk_data]

lemma splitDot_pair (a b : String) (ha : '.' ∉ a.data) (hb : '.' ∉ b.data) :
    splitDot (a ++ "." ++ b) = [a, b] := by
  have hd : (a ++ "." ++ b).data = a.data ++ '.' :: b.data := by
    cases a with
    | mk ad =>
      cases b with
      | mk bd =>
        show (ad ++ ['.']) ++ bd = ad ++ '.' :: bd
        simp
  unfold splitDot
  rw [hd, splitDotChars_append a.data b.data ha, splitDotChars_no_dot b.data hb]
  simp [mk_data]

lemma locusPair_no_dot (i : String) (h : '.' ∉ i.data) : locusPair i = (i, none) := by
  unfold locusPair
  rw [splitDot_no_dot i h]

lemma locusPair_pair (a b : String) (ha : '.' ∉ a.data) (hb : '.' ∉ b.data) :
    locusPair (a ++ "." ++ b) = (a, some b) := by
  unfold locusPair
  rw [splitDot_pair a b ha hb]

lemma le_foldr_max : ∀ (l : List Nat) (a n : Nat), n ∈ l → n ≤ l.foldr max a := by
  intro l
  induction l with
  | nil =>
    intro a n h
    exact absurd h (List.not_mem_nil n)
  | cons b t ih =>
    intro a n h
    rw [List.mem_cons] at h
    rcases h with rfl | h
    · exact Nat.le_max_left _ _
    · exact le_trans (ih a n h) (Nat.le_max_right _ _)

lemma zip_map_snd {α β : Type} (f : α → β) :
    ∀ (l : List α) (p : α × β), p ∈ l.zip (l.map f) → p.2 = f p.1 := by
  intro l
  induction l with
  | nil =>
    intro p h
    simp at h
  | cons a t ih =>
    intro p h
    rw [List.map_cons, List.zip_cons_cons, List.mem_cons] at h
    rcases h with rfl | h
    · rfl
    · exact ih p h

/-- C5 counterexample: under LocusVersioned mode a file holding the cleaned
identifiers `"A.1"` and `"B"` is processed successfully, and the separatorless
identifier `"B"` is NOT rejected: it comes out as locus `"B"` with a null
version — no failure occurs, contradicting the claimed
`MalformedIdentifierError`. -/
theorem C5_counterexample :
    locusSplitFile ["A.1", "B"] = some [("A", some "1"), ("B", none)] := by decide

/-- C5 (amended): the LocusVersioned split uses every dot and is applied
file-wide: a file is processed successfully only when the maximum part count
over its identifiers is exactly two; in a successful file an identifier of
shape `locus.version` (one dot) splits into `(locus, some version)`, while an
identifier with no dot is retained as `(clean_id, none)` rather than
failing; an identifier with two or more dots fails the entire file. -/
theorem C5_amended :
    (∀ ids out, locusSplitFile ids = some out →
      out.length = ids.length ∧
      (∀ i ∈ ids, (splitDot i).length ≤ 2) ∧
      (∀ p ∈ ids.zip out,
        ('.' ∉ p.1.data → p.2 = (p.1, none)) ∧
        (∀ a b, p.1 = a ++ "." ++ b → '.' ∉ a.data → '.' ∉ b.data →
          p.2 = (a, some b)))) ∧
    (∀ ids i, i ∈ ids → 3 ≤ (splitDot i).length → locusSplitFile ids = none) := by
  constructor
  · intro ids out h
    unfold locusSplitFile at h
    split at h
    · rename_i hmax
      injection h with h
      subst h
      refine ⟨by simp, ?_, ?_⟩
      · intro i hi
        have hmem : (splitDot i).length ∈ ids.map (fun i => (splitDot i).length) :=
          List.mem_map_of_mem _ hi
        have h2 := le_foldr_max _ 0 _ hmem
        rw [hmax] at h2
        exact h2
      · intro p hp
        have hps := zip_map_snd locusPair ids p hp
        constructor
        · intro hdot
          rw [hps, locusPair_no_dot p.1 hdot]
        · intro a b hab ha hb
          rw [hps, hab, locusPair_pair a b ha hb]
    · exact Option.noConfusion h
  · intro ids i hi h3
    have hmem : (splitDot i).length ∈ ids.map (fun i => (splitDot i).length) :=
      List.mem_map_of_mem _ hi
    have hle := le_foldr_max _ 0 _ hmem
    have hcond : ¬((ids.map fun i => (splitDot i).length).foldr max 0 = 2) := by
      intro heq
      rw [heq] at hle
      omega
    unfold locusSplitFile
    rw [if_neg hcond]

/-- C5 witness: the amended statement evaluated on the concrete file
`["X.2", "Y"]`, whose successful output keeps both identifiers. -/
theorem C5_amended_witness :
    (([("X", some "2"), ("Y", none)] : List (String × Option String)).length =
      (["X.2", "Y"] : List String).length) ∧
    (splitDot "X.2").length ≤ 2 := by
  have h := C5_amended.1 ["X.2", "Y"] [("X", some "2"), ("Y", none)] (by decide)
  exact ⟨h.1, h.2.1 "X.2" (by decide)⟩

/-! ### The two addressing modes and the three passes

`species = "A"` joins directly on the cleaned GeneID (`Direct`);
`species = "S"` derives a locus by the dot split (`LocusVersioned`). -/

inductive AddressingMode
  | Direct
  | LocusVersioned
  deriving DecidableEq

/-- One row of the annotated output (pass 1): the cleaned base row, the
`loc` and `Last` columns, and the seven identifier-or-empty category
columns. -/
structure AnnRow where
  base : Row
  loc : String
  last : Option String
  c1 : String
  c2 : String
  c3 : String
  c4 : String
  c5 : String
  c6 : String
  c7 : String
  deriving DecidableEq

/-- Builds an annotated row from a cleaned row and its locus columns, applying
the seven category functions exactly as pass 1 applies them to columns 9-15. -/
def mkAnnRow (r : Row) (l : String) (v : Option String) : AnnRow :=
  ⟨r, l, v, padj_low_005 r, log2FC_high_0_padj_low_005 r, log2FC_low_0_and_padj_low005 r,
    padj_low_001 r, log2FC_high_1_and_padj_low_001 r, log2FC_low_minus_1_and_padj_low_001 r,
    log2FC_higher_1_or_log2FC_low_minus_1_and_padj_001 r⟩

/-- Rows considered by pass 1 (annotated): all parsed rows, cleaned. -/
def annLoaded (rows : List Row) : List Row := rows.map cleanRow

/-- Rows considered by pass 2 (expression): all parsed rows, cleaned. -/
def exprLoaded (rows : List Row) : List Row := rows.map cleanRow

/-- Rows considered by pass 3 (sigOnly): the script unconditionally executes
`dfs = dfs.iloc[1:, :]`, discarding the first parsed row, before cleaning. -/
def sigLoaded (rows : List Row) : List Row := (rows.drop 1).map cleanRow

/-- Pass 1 up to (and excluding) the annotation merge: clean the ids, derive
the `loc`/`Last` columns per mode, and apply the seven category functions.
`none` models the whole-file failure of the two-column locus assignment. -/
def annotatedPass (mode : AddressingMode) (rows : List Row) : Option (List AnnRow) :=
  match mode with
  | AddressingMode.Direct =>
    some ((annLoaded rows).map (fun r => mkAnnRow r r.gene_id (some r.gene_id)))
  | AddressingMode.LocusVersioned =>
    (locusSplitFile ((annLoaded rows).map Row.gene_id)).map (fun ps =>
      ((annLoaded rows).zip ps).map (fun rp => mkAnnRow rp.1 rp.2.1 rp.2.2))

/-- Pass 2: one two-column expression table, `(GeneID, flag)`, for a given
boolean category function. -/
def expressionTable (rows : List Row) (flag : Row → String) : List (String × String) :=
  (exprLoaded rows).map (fun r => (r.gene_id, flag r))

/-- One row of the external keyed table the script merges against: a key
column and opaque passthrough columns. -/
structure AnnotEntry where
  key : String
  payload : List String
  deriving DecidableEq

/-- The rows `pd.merge(..., how='left')` produces for one left row: one row
per matching right row, or a single null-extended row when nothing matches. -/
def mergeBlock {α : Type} (key : α → String) (table : List AnnotEntry) (r : α) :
    List (α × Option (List String)) :=
  match table.filter (fun e => e.key == key r) with
  | [] => [(r, none)]
  | ms => ms.map (fun e => (r, some e.payload))

/-- Relational left join of `rows` against `table` on `key`, in left order. -/
def mergeLeft {α : Type} (key : α → String) (rows : List α) (table : List AnnotEntry) :
    List (α × Option (List String)) :=
  rows.flatMap (mergeBlock key table)

/-- The join key pass 1 merges on: `GeneID` for species A, `locus` for
species S. -/
def annotJoinKey (mode : AddressingMode) (a : AnnRow) : String :=
  match mode with
  | AddressingMode.Direct => a.base.gene_id
  | AddressingMode.LocusVersioned => a.loc

/-- Pass 1 including its annotation merge. -/
def annotatedJoined (mode : AddressingMode) (rows : List Row) (table : List AnnotEntry) :
    Option (List (AnnRow × Option (List String))) :=
  (annotatedPass mode rows).map (fun l => mergeLeft (annotJoinKey mode) l table)

/-- Pass 3 up to its significance filters: drop the first row, clean, derive
the locus column, and left-join against the annotation table on the
mode-appropriate key. Each element carries the row and its locus column. -/
def sigOnlyMerged (mode : AddressingMode) (rows : List Row) (table : List AnnotEntry) :
    Option (List ((Row × String) × Option (List String))) :=
  match mode with
  | AddressingMode.Direct =>
    some (mergeLeft (fun rl => rl.1.gene_id)
      ((sigLoaded rows).map (fun r => (r, r.gene_id))) table)
  | AddressingMode.LocusVersioned =>
    (locusSplitFile ((sigLoaded rows).map Row.gene_id)).map (fun ps =>
      mergeLeft (fun rl => rl.2)
        (((sigLoaded rows).zip ps).map (fun rp => (rp.1, rp.2.1))) table)

/-- Pass 3, filter 1: the `P-adj < 0.05` significant-only subset. -/
def sigOnlyTable1 (merged : List ((Row × String) × Option (List String))) :
    List ((Row × String) × Option (List String)) :=
  merged.filter (fun x => decide (x.1.1.p_adj < mkRat 5 100))

/-! ### Left-join lemmas -/

lemma filter_key_len_le_one {α : Type} (f : α → String) (k : String) :
    ∀ l : List α, (l.map f).Nodup → (l.filter (fun e => f e == k)).length ≤ 1 := by
  intro l
  induction l with
  | nil =>
    intro _
    simp
  | cons a t ih =>
    intro hnd
    rw [List.map_cons, List.nodup_cons] at hnd
    by_cases hk : f a = k
    · have hft : t.filter (fun e => f e == k) = [] := by
        rw [List.filter_eq_nil_iff]
        intro x hx hpx
        rw [beq_iff_eq] at hpx
        have hmem := List.mem_map_of_mem f hx
        rw [hpx, ← hk] at hmem
        exact hnd.1 hmem
      simp [List.filter_cons, hk, hft]
    · simp only [List.filter_cons]
      rw [if_neg (by simp [hk])]
      exact ih hnd.2

lemma mergeBlock_single {α : Type} (key : α → String) (table : List AnnotEntry) (r : α)
    (h : (table.map AnnotEntry.key).Nodup) :
    ∃ o, mergeBlock key table r = [(r, o)] := by
  rcases heq : table.filter (fun e => e.key == key r) with _ | ⟨e, ms⟩
  · refine ⟨none, ?_⟩
    unfold mergeBlock
    rw [heq]
  · have hlen := filter_key_len_le_one AnnotEntry.key (key r) table h
    rw [heq] at hlen
    have hms : ms = [] := by
      cases ms with
      | nil => rfl
      | cons x xs => simp at hlen
    subst hms
    refine ⟨some e.payload, ?_⟩
    unfold mergeBlock
    rw [heq]
    rfl

lemma mergeLeft_shape {α : Type} (key : α → String) (table : List AnnotEntry)
    (h : (table.map AnnotEntry.key).Nodup) :
    ∀ rows : List α, (mergeLeft key rows table).length = rows.length ∧
      (mergeLeft key rows table).map Prod.fst = rows := by
  intro rows
  induction rows with
  | nil => exact ⟨rfl, rfl⟩
  | cons r rs ih =>
    obtain ⟨o, hb⟩ := mergeBlock_single key table r h
    have hcons : mergeLeft key (r :: rs) table =
        mergeBlock key table r ++ mergeLeft key rs table := rfl
    rw [hcons, hb]
    constructor
    · simp [ih.1]
    · simp [ih.2]

lemma mergeLeft_unmatched {α : Type} (key : α → String) (table : List AnnotEntry)
    (rows : List α) (p : α × Option (List String)) (hp : p ∈ mergeLeft key rows table)
    (hk : key p.1 ∉ table.map AnnotEntry.key) : p.2 = none := by
  rw [mergeLeft, List.mem_flatMap] at hp
  obtain ⟨r, hr, hpr⟩ := hp
  rcases heq : table.filter (fun e => e.key == key r) with _ | ⟨e, ms⟩
  · unfold mergeBlock at hpr
    rw [heq] at hpr
    rw [List.mem_singleton] at hpr
    rw [hpr]
  · unfold mergeBlock at hpr
    rw [heq] at hpr
    rw [List.mem_map] at hpr
    obtain ⟨e2, he2, hpe⟩ := hpr
    have he2f : e2 ∈ table.filter (fun e => e.key == key r) := by
      rw [heq]
      exact he2
    rw [List.mem_filter] at he2f
    have hkey : AnnotEntry.key e2 = key r := by
      have h2 := he2f.2
      rw [beq_iff_eq] at h2
      exact h2
    exfalso
    apply hk
    have hmem := List.mem_map_of_mem AnnotEntry.key he2f.1
    rw [hkey] at hmem
    rw [← hpe]  at hk ⊢
    exact hmem

lemma locusSplitFile_length (ids : List String) (ps : List (String × Option String))
    (h : locusSplitFile ids = some ps) : ps.length = ids.length := by
  unfold locusSplitFile at h
  split at h
  · injection h with h
    rw [← h]
    simp
  · exact Option.noConfusion h

lemma annotatedPass_length (mode : AddressingMode) (rows : List Row) (out : List AnnRow)
    (h : annotatedPass mode rows = some out) : out.length = rows.length := by
  cases mode with
  | Direct =>
    unfold annotatedPass at h
    injection h with h
    rw [← h]
    simp [annLoaded]
  | LocusVersioned =>
    unfold annotatedPass at h
    rw [Option.map_eq_some'] at h
    obtain ⟨ps, hps, hout⟩ := h
    have h2 : ps.length = rows.length := by
      rw [locusSplitFile_length _ _ hps]
      simp [annLoaded]
    rw [← hout]
    rw [List.length_map, List.length_zip, h2]
    simp [annLoaded]

lemma annotatedPass_base (mode : AddressingMode) (rows : List Row) (out : List AnnRow)
    (h : annotatedPass mode rows = some out) : out.map AnnRow.base = annLoaded rows := by
  cases mode with
  | Direct =>
    unfold annotatedPass at h
    injection h with h
    rw [← h, List.map_map]
    have hcomp : (AnnRow.base ∘ fun r => mkAnnRow r r.gene_id (some r.gene_id)) = id := by
      funext r
      rfl
    rw [hcomp, List.map_id]
  | LocusVersioned =>
    unfold annotatedPass at h
    rw [Option.map_eq_some'] at h
    obtain ⟨ps, hps, hout⟩ := h
    rw [← hout, List.map_map]
    have hlen : (annLoaded rows).length ≤ ps.length := by
      rw [locusSplitFile_length _ _ hps, List.length_map]
    have hcomp : (AnnRow.base ∘ fun rp : Row × (String × Option String) =>
        mkAnnRow rp.1 rp.2.1 rp.2.2) = Prod.fst := by
      funext rp
      rfl
    rw [hcomp]
    exact List.map_fst_zip _ _ hlen

/-- C7: with unique keys in the annotation table, the pass-1 left join emits
exactly one joined row per input record, in order, for either addressing
mode, and a record whose join key is absent from the table is retained with a
null annotation payload — never dropped. -/
theorem C7_join_complete (mode : AddressingMode) (rows : List Row) (table : List AnnotEntry)
    (j : List (AnnRow × Option (List String)))
    (hj : annotatedJoined mode rows table = some j)
    (hk : (table.map AnnotEntry.key).Nodup) :
    j.length = rows.length ∧
    (∃ out, annotatedPass mode rows = some out ∧ j.map Prod.fst = out) ∧
    (∀ p ∈ j, annotJoinKey mode p.1 ∉ table.map AnnotEntry.key → p.2 = none) := by
  unfold annotatedJoined at hj
  rw [Option.map_eq_some'] at hj
  obtain ⟨out, hout, hj2⟩ := hj
  subst hj2
  have hm := mergeLeft_shape (annotJoinKey mode) table hk out
  refine ⟨?_, ⟨out, hout, hm.2⟩, ?_⟩
  · rw [hm.1]
    exact annotatedPass_length mode rows out hout
  · intro p hp hkey
    exact mergeLeft_unmatched (annotJoinKey mode) table out p hp hkey

/-- An insignificant row with an unmatched key, used to witness `C7_join_complete`. -/
def rowG3 : Row := ⟨"g3", 1, 0, 0, 0, 1, 1⟩

/-- The annotated row pass 1 produces for `rowG3`. -/
def annRowG3 : AnnRow := ⟨⟨"g3", 1, 0, 0, 0, 1, 1⟩, "g3", some "g3", "", "", "", "", "", "", ""⟩

/-- C7 witness: join completeness evaluated on a one-row file against a
one-entry table with a non-matching key. -/
theorem C7_join_complete_witness :
    ([(annRowG3, (none : Option (List String)))] : List (AnnRow × Option (List String))).length =
      ([rowG3] : List Row).length ∧
    (annRowG3, (none : Option (List String))).2 = none := by
  have h := C7_join_complete AddressingMode.Direct [rowG3] [⟨"zzz", ["d1"]⟩]
    [(annRowG3, none)] (by decide) (by decide)
  exact ⟨h.1, h.2.2 (annRowG3, none) (by decide) (by decide)⟩

/-- A strongly significant row, used for C6. -/
def sigRowA : Row := ⟨"gA", 100, 2, 1, 3, mkRat 1 10000, mkRat 1 1000⟩

/-- C6 counterexample: on a one-row input file, the gene appears in the pass-1
annotated output and in the pass-2 expression table (flagged `"True"` for
category 1), yet pass 3 unconditionally discards the first parsed row
(`dfs.iloc[1:, :]`), so the sigOnly pass considers no rows at all — the three
passes do not process the same set of rows. -/
theorem C6_counterexample :
    annotatedPass AddressingMode.Direct [sigRowA] =
      some [mkAnnRow sigRowA "gA" (some "gA")] ∧
    expressionTable [sigRowA] b_padj_low_005 = [("gA", "True")] ∧
    sigLoaded [sigRowA] = [] ∧
    sigOnlyMerged AddressingMode.Direct [sigRowA] [] = some [] ∧
    sigOnlyTable1 [] = [] := by decide

/-- C6 (amended): passes 1 and 2 parse and normalize exactly the same rows —
the expression table's gene column equals the annotated output's gene
column — while pass 3 considers exactly the annotated rows minus the first
parsed row. -/
theorem C6_amended (mode : AddressingMode) (rows : List Row) (out : List AnnRow)
    (h : annotatedPass mode rows = some out) :
    (expressionTable rows b_padj_low_005).map Prod.fst =
      out.map (fun a => a.base.gene_id) ∧
    sigLoaded rows = (annLoaded rows).drop 1 := by
  constructor
  · have hb := annotatedPass_base mode rows out h
    have hsplit : out.map (fun a => a.base.gene_id) =
        (out.map AnnRow.base).map Row.gene_id := by
      rw [List.map_map]
      rfl
    rw [hsplit, hb]
    unfold expressionTable exprLoaded annLoaded
    rw [List.map_map, List.map_map, List.map_map]
    rfl
  · unfold sigLoaded annLoaded
    rw [List.map_drop]

/-- C6 witness: the amended statement evaluated on a concrete two-row file in
Direct mode. -/
theorem C6_amended_witness :
    (expressionTable [sigRowA, rowG3] b_padj_low_005).map Prod.fst =
      ([mkAnnRow sigRowA "gA" (some "gA"), mkAnnRow rowG3 "g3" (some "g3")].map
        (fun a => a.base.gene_id)) ∧
    sigLoaded [sigRowA, rowG3] = (annLoaded [sigRowA, rowG3]).drop 1 :=
  C6_amended AddressingMode.Direct [sigRowA, rowG3]
    [mkAnnRow sigRowA "gA" (some "gA"), mkAnnRow rowG3 "g3" (some "g3")] (by decide)

/-- Scenario A's input row: `gene:Solyc01g000100.2  120.5  1.3  0.2  6.5
0.0001  0.002` (numerics as exact rationals). -/
def scenarioRow : Row :=
  ⟨"gene:Solyc01g000100.2", mkRat 1205 10, mkRat 13 10, mkRat 2 10, mkRat 65 10,
    mkRat 1 10000, mkRat 2 1000⟩

/-- C9: Scenario A under LocusVersioned mode: the cleaned id is
`Solyc01g000100.2`, the locus (join key) is `Solyc01g000100`, the version
column is `2`, categories 1, 2, 4, 5, 7 hold (identifier rendering equal to
the cleaned id, boolean rendering `"True"`) and categories 3, 6 do not
(empty rendering, `"False"`). -/
theorem C9_scenarioA :
    annotatedPass AddressingMode.LocusVersioned [scenarioRow] =
      some [⟨⟨"Solyc01g000100.2", mkRat 1205 10, mkRat 13 10, mkRat 2 10, mkRat 65 10,
        mkRat 1 10000, mkRat 2 1000⟩,
        "Solyc01g000100", some "2",
        "Solyc01g000100.2", "Solyc01g000100.2", "",
        "Solyc01g000100.2", "Solyc01g000100.2", "", "Solyc01g000100.2"⟩] ∧
    b_padj_low_005 (cleanRow scenarioRow) = "True" ∧
    b_log2FC_high_0_padj_low_005 (cleanRow scenarioRow) = "True" ∧
    b_log2FC_low_0_and_padj_low005 (cleanRow scenarioRow) = "False" ∧
    b_padj_low_001 (cleanRow scenarioRow) = "True" ∧
    b_log2FC_high_1_and_padj_low_001 (cleanRow scenarioRow) = "True" ∧
    b_log2FC_low_minus_1_and_padj_low_001 (cleanRow scenarioRow) = "False" ∧
    b_log2FC_higher_1_or_log2FC_low_minus_1_and_padj_001 (cleanRow scenarioRow) = "True" := by
  decide

/-- Rows used to witness `C10_hierarchy`. -/
def rowStrongUp : Row := ⟨"g", 0, 2, 0, 0, 0, mkRat 1 1000⟩

def rowStrongDown : Row := ⟨"g", 0, -2, 0, 0, 0, mkRat 1 1000⟩

def rowSig001 : Row := ⟨"g", 0, 0, 0, 0, 0, mkRat 1 1000⟩

/-- C10 witness: the hierarchy instantiated at concrete significant rows. -/
theorem C10_hierarchy_witness :
    (b_padj_low_005 rowStrongUp = "True" ∧ b_log2FC_high_0_padj_low_005 rowStrongUp = "True" ∧
      b_padj_low_001 rowStrongUp = "True") ∧
    (b_padj_low_005 rowStrongDown = "True" ∧ b_log2FC_low_0_and_padj_low005 rowStrongDown = "True" ∧
      b_padj_low_001 rowStrongDown = "True") ∧
    b_padj_low_005 rowSig001 = "True" :=
  ⟨C10_hierarchy.1 rowStrongUp (by decide), C10_hierarchy.2.1 rowStrongDown (by decide),
    C10_hierarchy.2.2 rowSig001 (by decide)⟩

end Postdeseq
